import Mathlib

/-!
Verification of the pg adapter (`BasicMainConnection.ts`): a shallow
embedding of its parameter merging, insert-returning rewriting, inserted-id
resolution, prepared-statement binding and in-memory cursor, with theorems
about the claimed properties.

Modelling conventions:
- JavaScript values are the inductive `Value`; `Value.undefined` is the
  absent-value marker, `Value.nullV` is `null`, objects carry their fields
  as an association list (pg rows have unique keys).
- A JavaScript array is a `List (Option Value)`: `none` is a hole (an index
  never assigned), `some v` a present element (possibly `some .undefined`,
  which JavaScript distinguishes from a hole: `forEach` skips holes but
  visits explicit `undefined` elements).
- Errors thrown by the TypeScript code become `Except String` with the
  exact message strings of the source.
- `\s`, `toLowerCase`/`toUpperCase` are modelled over ASCII (the unicode
  cases do not affect the properties below).
-/

namespace Pg

/-- JavaScript values, as far as the adapter observes them. -/
inductive Value where
  | undefined
  | nullV
  | bool (b : Bool)
  | num (n : Int)
  | str (s : String)
  | obj (fields : List (String × Value))
deriving Repr

/-- JavaScript truthiness (`if (x)`), restricted to `Value`. -/
def jsTruthy : Value → Bool
  | .undefined => false
  | .nullV => false
  | .bool b => b
  | .num n => n ≠ 0
  | .str s => s ≠ ""
  | .obj _ => true

/-- A result row: mapping from column name to value, in engine column order. -/
abbrev Row : Type := List (String × Value)

/-- First value stored under a key (JavaScript property lookup on an object). -/
def lookupKey : List (String × Value) → String → Option Value
  | [], _ => none
  | (k2, v) :: rest, k => if k2 = k then some v else lookupKey rest k

/-- `row.hasOwnProperty(col)`. -/
def hasCol (row : Row) (c : String) : Bool :=
  (lookupKey row c).isSome

/-- `row[col]` (undefined when the key is missing). -/
def jsGet (row : Row) (c : String) : Value :=
  (lookupKey row c).getD .undefined

/-- `Object.keys(row).join(", ")`. -/
def availableCols (row : Row) : String :=
  String.intercalate ", " (row.map (fun p => p.1))

/-- Truthiness of a `string | undefined` variable (`""` is falsy). -/
def strTruthy : Option String → Bool
  | none => false
  | some s => s ≠ ""

/-! ## Parameters (`SqlParameters`: positional array or named mapping) -/

/-- An `SqlParameters` value: ordered (array) or named (plain object). -/
inductive SqlParams where
  | ordered (values : List (Option Value))
  | named (values : List (String × Value))

/-- Slot at index `j`: `some v` when a value (possibly `undefined`) was
assigned there, `none` for a hole or an out-of-bounds index. -/
def getSlot (l : List (Option Value)) (j : Nat) : Option Value :=
  (l.get? j).getD none

/-- Reading `a[j]`: holes and out-of-bounds reads yield `undefined`. -/
def readIdx (l : List (Option Value)) (j : Nat) : Value :=
  (getSlot l j).getD .undefined

/-- `a[i] = v` on an array: pads with holes when `i` is past the end. -/
def jsArraySet : List (Option Value) → Nat → Value → List (Option Value)
  | [], 0, v => [some v]
  | [], i + 1, v => none :: jsArraySet [] i v
  | _ :: t, 0, v => some v :: t
  | h :: t, i + 1, v => h :: jsArraySet t i v

/-- `a[i] = v` for a possibly negative index: a negative index sets a
non-index property on the array object, invisible to positional reads. -/
def jsArraySetInt (l : List (Option Value)) (i : Int) (v : Value) : List (Option Value) :=
  match i with
  | .ofNat n => jsArraySet l n v
  | .negSucc _ => l

/-- `[...a]`: array spread turns holes into explicit `undefined` elements. -/
def spreadCopy (l : List (Option Value)) : List (Option Value) :=
  l.map (fun s => some (s.getD .undefined))

/-- `override.forEach((val, index) => result[index] = val)` starting at
index `i`: holes of `override` are skipped. -/
def forEachSetAux : List (Option Value) → List (Option Value) → Nat → List (Option Value)
  | base, [], _ => base
  | base, slot :: rest, i =>
    forEachSetAux (match slot with | some v => jsArraySet base i v | none => base) rest (i + 1)

/-- The whole `forEach` overwrite of `base` by `override`. -/
def forEachSet (base override : List (Option Value)) : List (Option Value) :=
  forEachSetAux base override 0

/-- First-of: keep `a` when present, else `b`. -/
def optOr (a b : Option Value) : Option Value :=
  match a with
  | some v => some v
  | none => b

/-- `{...m1, ...m2}`: keys of `m1` in order with values overwritten by
`m2` on collision, then the keys only `m2` has. -/
def objectSpread (m1 m2 : List (String × Value)) : List (String × Value) :=
  (m1.map (fun p => match lookupKey m2 p.1 with | some v => (p.1, v) | none => p)) ++
    m2.filter (fun p => (lookupKey m1 p.1).isNone)

/-- `mergeParams(params1, params2)` from the source: absent side passes the
other through; mixing styles throws; ordered merge is a spread copy of the
base overwritten by `forEach` over the override; named merge is object
spread. -/
def mergeParams (params1 params2 : Option SqlParams) : Except String (Option SqlParams) :=
  match params1 with
  | none => .ok params2
  | some p1 =>
    match params2 with
    | none => .ok (some p1)
    | some p2 =>
      match p1, p2 with
      | .ordered l1, .ordered l2 => .ok (some (.ordered (forEachSet (spreadCopy l1) l2)))
      | .named m1, .named m2 => .ok (some (.named (objectSpread m1 m2)))
      | _, _ => .error "Cannot merge named parameters with positioned parameters"

/-- `toPositionalParameters`: `undefined` and arrays pass through, a named
mapping throws. -/
def toPositionalParameters (params : Option SqlParams) :
    Except String (Option (List (Option Value))) :=
  match params with
  | none => .ok none
  | some (.ordered l) => .ok (some l)
  | some (.named _) => .error "Named parameters are not implemented"

/-! ## The insert regex

`/^\s*insert\s+into\s+([^\s\(]+)\s*(?:\([^)]+\))?\s*values\s*\([\s\S]*\)\s*$/i`
implemented as a backtracking matcher returning the captured table token.
Backtracking can only arise at the greedy capture `([^\s\(]+)` (shortening
it can expose the literal `values`) and at the optional column-list group;
every other greedy piece is followed by a character its class excludes, so
it is deterministic. -/

/-- ASCII white space, for `\s`. -/
def isJsWs (c : Char) : Bool :=
  c = ' ' || c = '\t' || c = '\n' || c = '\r' || c = '\x0b' || c = '\x0c'

/-- Drop leading white space (`\s*`). -/
def skipWs : List Char → List Char
  | [] => []
  | c :: rest => if isJsWs c then skipWs rest else c :: rest

/-- Match a literal case-insensitively, returning the rest. -/
def ciLit : List Char → List Char → Option (List Char)
  | [], s => some s
  | _ :: _, [] => none
  | l :: ls, c :: cs => if l.toLower = c.toLower then ciLit ls cs else none

/-- `\s+`: require one white-space character, then drop the run. -/
def ws1 : List Char → Option (List Char)
  | [] => none
  | c :: rest => if isJsWs c then some (skipWs rest) else none

/-- Longest run of characters in `[^\s\(]`, with the remainder. -/
def takeNonWsParen : List Char → List Char × List Char
  | [] => ([], [])
  | c :: rest =>
    if isJsWs c || c = '(' then ([], c :: rest)
    else
      let (tk, rst) := takeNonWsParen rest
      (c :: tk, rst)

/-- Longest run of characters in `[^)]`, with the remainder. -/
def takeNonParenClose : List Char → List Char × List Char
  | [] => ([], [])
  | c :: rest =>
    if c = ')' then ([], c :: rest)
    else
      let (tk, rst) := takeNonParenClose rest
      (c :: tk, rst)

/-- `[\s\S]*\)\s*$` on the text after the opening parenthesis: some `)`
is followed only by white space. Greedily this is: after dropping trailing
white space the text ends in `)`. -/
def tailParenClose (r : List Char) : Bool :=
  match skipWs r.reverse with
  | [] => false
  | c :: _ => c = ')'

/-- `\s*values\s*\([\s\S]*\)\s*$`. -/
def afterCols (s : List Char) : Bool :=
  match ciLit "values".toList (skipWs s) with
  | none => false
  | some rest =>
    match skipWs rest with
    | '(' :: r => tailParenClose r
    | _ => false

/-- `\s*(?:\([^)]+\))?\s*values\s*\([\s\S]*\)\s*$`: the optional column
list is tried present first, then absent. -/
def afterTable (s : List Char) : Bool :=
  let s := skipWs s
  (match s with
   | '(' :: rest =>
     let (inner, rest2) := takeNonParenClose rest
     match rest2 with
     | ')' :: rest3 => !inner.isEmpty && afterCols rest3
     | _ => false
   | _ => false) ||
  afterCols s

/-- Greedy capture with backtracking: try the capture lengths `n, …, 1`
(longest first, as the regex engine does) until the rest matches. -/
def tryCaptureLen (tk rest : List Char) : Nat → Option (List Char)
  | 0 => none
  | i + 1 =>
    if afterTable (tk.drop (i + 1) ++ rest) then some (tk.take (i + 1))
    else tryCaptureLen tk rest i

/-- `insertRegexp.exec(sql)`, reduced to the captured table token (`none`
when the statement does not match). -/
def insertRegexpExec (sql : String) : Option String :=
  let s0 := skipWs sql.toList
  match ciLit "insert".toList s0 with
  | none => none
  | some s1 =>
    match ws1 s1 with
    | none => none
    | some s2 =>
      match ciLit "into".toList s2 with
      | none => none
      | some s3 =>
        match ws1 s3 with
        | none => none
        | some s4 =>
          let (tk, rest) := takeNonWsParen s4
          if tk.isEmpty then none
          else
            match tryCaptureLen tk rest tk.length with
            | none => none
            | some cap => some (String.mk cap)

/-! ## The rewriter -/

/-- The recognized `LadcPgOptions` fields. -/
structure LadcPgOptions where
  autoincMapping : Option (List (String × String)) := none
  useReturningAll : Bool := false
  inMemoryCursor : Bool := false

/-- The object returned by `addReturningToInsert`; a field is `none` when
the property is absent or `undefined`. -/
structure AddReturningResult where
  sql : String
  insertTable : Option String := none
  idColumnName : Option String := none
deriving Repr

/-- Lookup in an association list of strings. -/
def lookupStr : List (String × String) → String → Option String
  | [], _ => none
  | (k2, v) :: rest, k => if k2 = k then some v else lookupStr rest k

/-- `options.autoincMapping && options.autoincMapping[insertTable]`. -/
def autoincLookup (options : LadcPgOptions) (insertTable : String) : Option String :=
  options.autoincMapping.bind (fun m => lookupStr m insertTable)

/-- `addReturningToInsert(sql, options)`: on a regex match, append
`returning <col>` when the table has a (truthy) configured column, else
`returning *` when `useReturningAll`, else keep the text; the matched
table is returned in every matching case. -/
def addReturningToInsert (sql : String) (options : LadcPgOptions) : AddReturningResult :=
  match insertRegexpExec sql with
  | none => { sql := sql }
  | some insertTable =>
    let idColumnName := autoincLookup options insertTable
    let sql :=
      if strTruthy idColumnName then sql ++ " returning " ++ idColumnName.getD ""
      else if options.useReturningAll then sql ++ " returning *"
      else sql
    { sql := sql, insertTable := some insertTable, idColumnName := idColumnName }

/-! ## The result adapter (`toBasicExecResult` / `getInsertedId`) -/

/-- The engine result shape consumed by the adapter. -/
structure QueryResult where
  rows : List Row
  rowCount : Int

/-- Error message for a zero-row result. -/
def zeroRowsMsg : String :=
  "Cannot get the inserted ID, please append \x27returning your_column_id\x27 to your query"

/-- Error message for a result of `n` rows, `n > 1`. -/
def multiRowsMsg (n : Nat) : String :=
  "Cannot get the inserted ID, there must be one result row (" ++ toString n ++ ")"

/-- Error message for a named column missing from the row. -/
def unknownColMsg (c : String) (row : Row) : String :=
  "Cannot get the inserted ID \x27" ++ c ++ "\x27, available columns are: " ++ availableCols row

/-- Error message when no rule resolved a column. -/
def unresolvedMsg (row : Row) : String :=
  "Cannot get the inserted ID, available columns are: " ++ availableCols row

/-- `toLowerCase`, character-wise over ASCII. -/
def strToLower (s : String) : String :=
  String.mk (s.data.map Char.toLower)

/-- `toUpperCase`, character-wise over ASCII. -/
def strToUpper (s : String) : String :=
  String.mk (s.data.map Char.toUpper)

/-- The `col` computation inside `getInsertedId`: explicit argument first,
then the rewriter-recorded column (each throwing when missing from the
row), then — when a table was recorded — the probe for `id`,
`<table.toLowerCase()>_id` and its upper-cased form; `ok none` when no
rule applied. -/
def resolveIdCol (row : Row) (insertTable optIdCol idColumnName : Option String) :
    Except String (Option String) :=
  if strTruthy idColumnName then
    let c := idColumnName.getD ""
    if hasCol row c then .ok (some c) else .error (unknownColMsg c row)
  else if strTruthy optIdCol then
    let c := optIdCol.getD ""
    if hasCol row c then .ok (some c) else .error (unknownColMsg c row)
  else if strTruthy insertTable then
    .ok
      (if hasCol row "id" then some "id"
       else
         let composed := strToLower (insertTable.getD "") ++ "_id"
         if hasCol row composed then some composed
         else
           let composed2 := strToUpper composed
           if hasCol row composed2 then some composed2 else none)
  else .ok none

/-- The `getInsertedId(idColumnName?)` closure produced by
`toBasicExecResult(result, insertTable?, optIdCol?)`. -/
def getInsertedId (result : QueryResult) (insertTable optIdCol idColumnName : Option String) :
    Except String Value :=
  if result.rows.length ≠ 1 then
    if result.rows.length = 0 then .error zeroRowsMsg
    else .error (multiRowsMsg result.rows.length)
  else
    let row := result.rows.headD []
    match resolveIdCol row insertTable optIdCol idColumnName with
    | .error e => .error e
    | .ok none => .error (unresolvedMsg row)
    | .ok (some col) => .ok (jsGet row col)

/-! ## Prepared statement: `bind` / `unbind` -/

/-- A `number | string` key. -/
inductive BindKey where
  | num (k : Int)
  | str (s : String)

/-- `obj[k] = v` on a plain object. -/
def jsObjSet (m : List (String × Value)) (k : String) (v : Value) : List (String × Value) :=
  if (lookupKey m k).isSome then
    m.map (fun p => if p.1 = k then (k, v) else p)
  else m ++ [(k, v)]

/-- `bind(key, value)`: a string key throws; otherwise lazily allocate
`boundParams` as `[]` and perform `boundParams[key - 1] = value` (a named
`boundParams` object gets the stringified index as property). -/
def psBind (boundParams : Option SqlParams) (key : BindKey) (value : Value) :
    Except String (Option SqlParams) :=
  match key with
  | .str _ => .error "Named parameters are not implemented"
  | .num k =>
    let bp := boundParams.getD (.ordered [])
    match bp with
    | .ordered l => .ok (some (.ordered (jsArraySetInt l (k - 1) value)))
    | .named m => .ok (some (.named (jsObjSet m (toString (k - 1)) value)))

/-- A JavaScript array-index key: a string that is the canonical decimal
representation of an integer below `2^32 - 1`. A property write under such
a key on an array is an element write; any other string key sets a
non-index property, invisible to positional reads. -/
def arrayIndex (s : String) : Option Nat :=
  let cs := s.data
  if cs ≠ [] && cs.all (fun c => c.isDigit) && (cs.head? ≠ some '0' || cs = ['0']) then
    let n := cs.foldl (fun acc c => acc * 10 + (c.toNat - 48)) 0
    if n < 4294967295 then some n else none
  else none

/-- `unbind(key)`: when `boundParams` exists, `boundParams[key] = undefined`
(on an array, a canonical array-index string key writes that slot like a
numeric index; any other string key sets a non-index property, invisible
to positional reads); otherwise a no-op. It never throws. -/
def psUnbind (boundParams : Option SqlParams) (key : BindKey) :
    Except String (Option SqlParams) :=
  match boundParams with
  | none => .ok none
  | some bp =>
    match bp, key with
    | .ordered l, .num k => .ok (some (.ordered (jsArraySetInt l k .undefined)))
    | .ordered l, .str s =>
      match arrayIndex s with
      | some n => .ok (some (.ordered (jsArraySet l n .undefined)))
      | none => .ok (some (.ordered l))
    | .named m, .num k => .ok (some (.named (jsObjSet m (toString k) .undefined)))
    | .named m, .str s => .ok (some (.named (jsObjSet m s .undefined)))

/-! ## The queries sent to the engine -/

/-- The argument object of `client.query` (scripts aside). -/
structure QueryArgs where
  name : Option String
  text : String
  values : Option (List (Option Value))

/-- `exec(params?)` of a prepared statement: rewrite the original SQL,
merge bound and call-site parameters, convert, and query under the
statement name. -/
def psExecQuery (options : LadcPgOptions) (sql psName : String)
    (boundParams callParams : Option SqlParams) : Except String QueryArgs := do
  let r := addReturningToInsert sql options
  let merged ← mergeParams boundParams callParams
  let values ← toPositionalParameters merged
  return ⟨some psName, r.sql, values⟩

/-- `all(params?)` of a prepared statement: the original SQL is sent
unmodified. -/
def psAllQuery (options : LadcPgOptions) (sql psName : String)
    (boundParams callParams : Option SqlParams) : Except String QueryArgs := do
  let _ := options
  let merged ← mergeParams boundParams callParams
  let values ← toPositionalParameters merged
  return ⟨some psName, sql, values⟩

/-- `cursor(params?)` of a prepared statement: fail without the
`inMemoryCursor` option, else send the original SQL unmodified. -/
def psCursorQuery (options : LadcPgOptions) (sql psName : String)
    (boundParams callParams : Option SqlParams) : Except String QueryArgs := do
  if !options.inMemoryCursor then
    throw "Cursor is not available. Maybe use the option \x27inMemoryCursor\x27."
  let merged ← mergeParams boundParams callParams
  let values ← toPositionalParameters merged
  return ⟨some psName, sql, values⟩

/-- `exec(sql, params?)` of the connection facade (no statement name). -/
def connExecQuery (options : LadcPgOptions) (sql : String)
    (params : Option SqlParams) : Except String QueryArgs := do
  let r := addReturningToInsert sql options
  let values ← toPositionalParameters params
  return ⟨none, r.sql, values⟩

/-! ## The in-memory cursor -/

/-- The captured state of `makeInMemoryCursor`: the stored list (dropped on
exhaustion or close) and `currentIndex`. -/
structure InMemoryCursor where
  rows : Option (List Value)
  currentIndex : Int
deriving Repr

/-- What one `next()`/`return()` call resolves to. -/
structure IterResult where
  done : Bool
  value : Value
deriving Repr

/-- `rows[i]` for an `Int` index: out of bounds reads `undefined`. -/
def jsIndexList (l : List Value) (i : Int) : Value :=
  match i with
  | .ofNat n => (l.get? n).getD .undefined
  | .negSucc _ => .undefined

/-- `makeInMemoryCursor(rows)`: index starts at `-1`. -/
def makeInMemoryCursor (rows : Option (List Value)) : InMemoryCursor :=
  ⟨rows, -1⟩

/-- `next()`: with no stored list report done; else pre-increment the
index, read the element, drop the list when the element is falsy, and
report `done = !rows` together with the element read. -/
def cursorNext (cur : InMemoryCursor) : InMemoryCursor × IterResult :=
  match cur.rows with
  | none => (cur, ⟨true, .undefined⟩)
  | some rows =>
    let i := cur.currentIndex + 1
    let value := jsIndexList rows i
    let rows' : Option (List Value) := if jsTruthy value then some rows else none
    (⟨rows', i⟩, ⟨rows'.isNone, value⟩)

/-- `return()`: drop the list, report done. -/
def cursorReturn (cur : InMemoryCursor) : InMemoryCursor × IterResult :=
  (⟨none, cur.currentIndex⟩, ⟨true, .undefined⟩)

/-- `throw(err)`: drop the list (the error is re-raised to the consumer). -/
def cursorThrow (cur : InMemoryCursor) : InMemoryCursor :=
  ⟨none, cur.currentIndex⟩

/-! ## Helper lemmas -/

@[simp] theorem optOr_none (b : Option Value) : optOr none b = b := rfl

@[simp] theorem optOr_some (v : Value) (b : Option Value) : optOr (some v) b = some v := rfl

@[simp] theorem getSlot_nil (j : Nat) : getSlot [] j = none := by
  cases j <;> rfl

@[simp] theorem getSlot_cons_zero (h : Option Value) (t : List (Option Value)) :
    getSlot (h :: t) 0 = h := rfl

@[simp] theorem getSlot_cons_succ (h : Option Value) (t : List (Option Value)) (j : Nat) :
    getSlot (h :: t) (j + 1) = getSlot t j := rfl

/-- `jsArraySet` writes exactly one slot and leaves every other read alone. -/
theorem getSlot_jsArraySet (l : List (Option Value)) (i : Nat) (v : Value) (j : Nat) :
    getSlot (jsArraySet l i v) j = if j = i then some v else getSlot l j := by
  induction l generalizing i j with
  | nil =>
    induction i generalizing j with
    | zero => cases j <;> simp [jsArraySet]
    | succ i ih =>
      cases j with
      | zero => simp [jsArraySet]
      | succ j => simpa [jsArraySet] using ih j
  | cons h t ih =>
    cases i with
    | zero => cases j <;> simp [jsArraySet]
    | succ i =>
      cases j with
      | zero => simp [jsArraySet]
      | succ j => simpa [jsArraySet] using ih i j

/-- Reads after the `forEach` overwrite: a slot present in the override
(at or past the start index) wins, otherwise the base answers. -/
theorem getSlot_forEachSetAux (ov base : List (Option Value)) (i j : Nat) :
    getSlot (forEachSetAux base ov i) j =
      optOr (if i ≤ j then getSlot ov (j - i) else none) (getSlot base j) := by
  induction ov generalizing base i with
  | nil => by_cases h : i ≤ j <;> simp [forEachSetAux, h]
  | cons slot rest ih =>
    by_cases h1 : i ≤ j
    · by_cases h2 : i + 1 ≤ j
      · have hji : j - i = (j - (i + 1)) + 1 := by omega
        cases slot with
        | none => simp [forEachSetAux, ih, h1, h2, hji]
        | some v =>
          have hne : j ≠ i := by omega
          simp [forEachSetAux, ih, h1, h2, hji, getSlot_jsArraySet, hne]
      · have hji : j = i := by omega
        subst hji
        cases slot with
        | none => simp [forEachSetAux, ih, h2]
        | some v => simp [forEachSetAux, ih, h2, getSlot_jsArraySet]
    · have h2 : ¬ i + 1 ≤ j := by omega
      have hne : j ≠ i := by omega
      cases slot with
      | none => simp [forEachSetAux, ih, h1, h2]
      | some v => simp [forEachSetAux, ih, h1, h2, getSlot_jsArraySet, hne]

/-- Spreading an array changes no read: holes become explicit `undefined`. -/
theorem readIdx_spreadCopy (l : List (Option Value)) (j : Nat) :
    readIdx (spreadCopy l) j = readIdx l j := by
  induction l generalizing j with
  | nil => simp [spreadCopy, readIdx]
  | cons h t ih =>
    cases j with
    | zero => simp [spreadCopy, readIdx]
    | succ j => simpa [spreadCopy, readIdx] using ih j

/-- Reads of the merged ordered parameters: positions present in the
override win, every other position reads as in the base. -/
theorem readIdx_mergeOrdered (l1 l2 : List (Option Value)) (j : Nat) :
    readIdx (forEachSet (spreadCopy l1) l2) j =
      match getSlot l2 j with
      | some v => v
      | none => readIdx l1 j := by
  have h := getSlot_forEachSetAux l2 (spreadCopy l1) 0 j
  simp only [Nat.zero_le, if_true, Nat.sub_zero] at h
  rw [readIdx, forEachSet, h]
  cases hs : getSlot l2 j with
  | none => simpa [optOr] using readIdx_spreadCopy l1 j
  | some v => simp [optOr]

theorem lookupKey_append (m1 m2 : List (String × Value)) (k : String) :
    lookupKey (m1 ++ m2) k = optOr (lookupKey m1 k) (lookupKey m2 k) := by
  induction m1 with
  | nil => simp [lookupKey]
  | cons p rest ih =>
    by_cases h : p.1 = k <;> simp [lookupKey, h, ih]

/-- Lookup in the overwritten copy of the base object. -/
theorem lookupKey_mapOverride (m1 m2 : List (String × Value)) (k : String) :
    lookupKey
        (m1.map (fun p => match lookupKey m2 p.1 with | some v => (p.1, v) | none => p)) k =
      match lookupKey m1 k with
      | some v0 => some ((lookupKey m2 k).getD v0)
      | none => none := by
  induction m1 with
  | nil => rfl
  | cons p rest ih =>
    obtain ⟨k1, v1⟩ := p
    by_cases h : k1 = k
    · subst h
      cases h2 : lookupKey m2 k1 <;> simp [lookupKey, h2]
    · cases h2 : lookupKey m2 k1 <;> simp [lookupKey, h, h2, ih]

/-- Lookup among the override keys that the base does not have. -/
theorem lookupKey_filterNew (m1 m2 : List (String × Value)) (k : String) :
    lookupKey (m2.filter (fun p => (lookupKey m1 p.1).isNone)) k =
      match lookupKey m1 k with
      | some _ => none
      | none => lookupKey m2 k := by
  induction m2 with
  | nil => cases h : lookupKey m1 k <;> simp [lookupKey]
  | cons p rest ih =>
    obtain ⟨k2, v2⟩ := p
    by_cases h : k2 = k
    · subst h
      cases h1 : lookupKey m1 k2 <;> simp [List.filter_cons, lookupKey, h1, ih]
    · cases h1 : lookupKey m1 k2 <;> cases h0 : lookupKey m1 k <;>
        simp [List.filter_cons, lookupKey, h, h1, h0, ih]

/-- Lookup in the object spread: the override wins, then the base. -/
theorem lookupKey_objectSpread (m1 m2 : List (String × Value)) (k : String) :
    lookupKey (objectSpread m1 m2) k = optOr (lookupKey m2 k) (lookupKey m1 k) := by
  rw [objectSpread, lookupKey_append, lookupKey_mapOverride, lookupKey_filterNew]
  cases h1 : lookupKey m1 k <;> cases h2 : lookupKey m2 k <;> simp [optOr]

/-- An exhausted cursor stays put: `next()` on a dropped list changes
nothing and reports done. -/
theorem cursorNext_exhausted (c : InMemoryCursor) (h : c.rows = none) :
    cursorNext c = (c, ⟨true, .undefined⟩) := by
  unfold cursorNext
  rw [h]

/-- `return()` always drops the list and reports done. -/
theorem cursorReturn_drops (c : InMemoryCursor) :
    cursorReturn c = (⟨none, c.currentIndex⟩, ⟨true, .undefined⟩) := rfl

/-! ## Claims -/

/-- Claim C4: the inserted-id resolver fails whenever the result does not
hold exactly one row — with zero rows the message asks for a `RETURNING`
clause, with more rows the message states the row count — and it never
returns a value in either case. -/
theorem c4_row_count_guard (result : QueryResult)
    (insertTable optIdCol idColumnName : Option String) :
    (result.rows.length = 0 →
      getInsertedId result insertTable optIdCol idColumnName = .error zeroRowsMsg) ∧
    (1 < result.rows.length →
      getInsertedId result insertTable optIdCol idColumnName =
        .error (multiRowsMsg result.rows.length)) ∧
    (∃ pre post, zeroRowsMsg = pre ++ "returning" ++ post) ∧
    (∀ n, ∃ pre post, multiRowsMsg n = pre ++ toString n ++ post) ∧
    (result.rows.length ≠ 1 →
      ∀ v, getInsertedId result insertTable optIdCol idColumnName ≠ .ok v) := by
  refine ⟨?_, ?_, ?_, ?_, ?_⟩
  · intro h0
    simp [getInsertedId, h0]
  · intro h1
    have hne : result.rows.length ≠ 1 := by omega
    have h0 : ¬ result.rows.length = 0 := by omega
    simp [getInsertedId, hne, h0]
  · exact ⟨"Cannot get the inserted ID, please append \x27",
      " your_column_id\x27 to your query", rfl⟩
  · intro n
    exact ⟨"Cannot get the inserted ID, there must be one result row (", ")", rfl⟩
  · intro hne v
    unfold getInsertedId
    rw [if_pos hne]
    by_cases h0 : result.rows.length = 0 <;> simp [h0]

/-- Witness for C4 at a zero-row and a two-row result. -/
theorem c4_witness :
    getInsertedId ⟨[], 0⟩ none none none = .error zeroRowsMsg ∧
    getInsertedId ⟨[[("id", Value.num 1)], [("id", Value.num 2)]], 2⟩ none none none =
      .error (multiRowsMsg 2) :=
  ⟨(c4_row_count_guard ⟨[], 0⟩ none none none).1 rfl,
   (c4_row_count_guard ⟨[[("id", Value.num 1)], [("id", Value.num 2)]], 2⟩
      none none none).2.1 (by decide)⟩

/-- Claim C5: `mergeParams` returns the other side when one is absent,
rejects mixed styles with the style-mismatch error, merges ordered sets by
overwriting the positions present in the override (`[a,b]` with `[x]`
gives `[x,b]`), and merges named sets as the key union with the override
winning. -/
theorem c5_mergeParams_semantics :
    (∀ p, mergeParams none p = .ok p) ∧
    (∀ p, mergeParams p none = .ok p) ∧
    (∀ l m, mergeParams (some (.ordered l)) (some (.named m)) =
      .error "Cannot merge named parameters with positioned parameters") ∧
    (∀ l m, mergeParams (some (.named m)) (some (.ordered l)) =
      .error "Cannot merge named parameters with positioned parameters") ∧
    (∀ l1 l2, mergeParams (some (.ordered l1)) (some (.ordered l2)) =
        .ok (some (.ordered (forEachSet (spreadCopy l1) l2))) ∧
      ∀ j, readIdx (forEachSet (spreadCopy l1) l2) j =
        match getSlot l2 j with
        | some v => v
        | none => readIdx l1 j) ∧
    (∀ a b x : Value,
      mergeParams (some (.ordered [some a, some b])) (some (.ordered [some x])) =
        .ok (some (.ordered [some x, some b]))) ∧
    (∀ m1 m2, mergeParams (some (.named m1)) (some (.named m2)) =
        .ok (some (.named (objectSpread m1 m2))) ∧
      ∀ k, lookupKey (objectSpread m1 m2) k = optOr (lookupKey m2 k) (lookupKey m1 k)) := by
  refine ⟨fun p => rfl, ?_, fun l m => rfl, fun l m => rfl,
    fun l1 l2 => ⟨rfl, readIdx_mergeOrdered l1 l2⟩, fun a b x => rfl,
    fun m1 m2 => ⟨rfl, lookupKey_objectSpread m1 m2⟩⟩
  intro p
  cases p <;> rfl

/-- Claim C6: a statement the insert regex does not match passes through
the rewriter byte-identical, with no table and no column recorded, and the
facade sends exactly the caller's text to the engine. -/
theorem c6_nonmatching_passthrough (sql : String) (options : LadcPgOptions)
    (h : insertRegexpExec sql = none) :
    addReturningToInsert sql options =
      { sql := sql, insertTable := none, idColumnName := none } ∧
    connExecQuery options sql none = .ok ⟨none, sql, none⟩ := by
  have h1 : addReturningToInsert sql options = { sql := sql } := by
    unfold addReturningToInsert
    rw [h]
  exact ⟨h1, by simp [connExecQuery, h1, toPositionalParameters]⟩

/-- Witness for C6 on a select statement. -/
theorem c6_witness :
    insertRegexpExec "select * from users" = none ∧
    addReturningToInsert "select * from users" ⟨none, false, false⟩ =
      { sql := "select * from users", insertTable := none, idColumnName := none } :=
  ⟨rfl, (c6_nonmatching_passthrough "select * from users" ⟨none, false, false⟩ rfl).1⟩

/-- Counterexample to claim C8: `unbind` with a string key does not fail —
it resolves normally, unlike the claimed NotImplemented rejection. -/
theorem c8_counterexample :
    psUnbind (some (.ordered [some (Value.num 1)])) (.str "col") =
      .ok (some (.ordered [some (Value.num 1)])) ∧
    (Except.ok (some (SqlParams.ordered [some (Value.num 1)])) ≠
      (Except.error "Named parameters are not implemented" :
        Except String (Option SqlParams))) :=
  ⟨rfl, fun h => Except.noConfusion h⟩

/-- Claim C8 as amended: converting a named set to wire format fails with
the NotImplemented message, `bind` with a string key fails with it too,
but `unbind` never fails for any key: a string key is silently accepted —
on an ordered set an array-index string writes `undefined` into that slot,
and any other string key leaves the slots unchanged. -/
theorem c8_named_params_rejection :
    (∀ m, toPositionalParameters (some (.named m)) =
      .error "Named parameters are not implemented") ∧
    (∀ bp s v, psBind bp (.str s) v = .error "Named parameters are not implemented") ∧
    (∀ bp key, ∃ r, psUnbind bp key = .ok r) ∧
    (∀ l s n, arrayIndex s = some n →
      psUnbind (some (.ordered l)) (.str s) =
        .ok (some (.ordered (jsArraySet l n .undefined)))) ∧
    (∀ l s, arrayIndex s = none →
      psUnbind (some (.ordered l)) (.str s) = .ok (some (.ordered l))) := by
  refine ⟨fun m => rfl, fun bp s v => rfl, fun bp key => ?_,
    fun l s n h => by simp [psUnbind, h], fun l s h => by simp [psUnbind, h]⟩
  cases bp with
  | none => exact ⟨none, rfl⟩
  | some p =>
    cases p with
    | ordered l =>
      cases key with
      | num k => exact ⟨_, rfl⟩
      | str s =>
        cases h : arrayIndex s with
        | some n =>
          exact ⟨some (.ordered (jsArraySet l n .undefined)), by simp [psUnbind, h]⟩
        | none => exact ⟨some (.ordered l), by simp [psUnbind, h]⟩
    | named m => cases key <;> exact ⟨_, rfl⟩

/-- Witness for C8: the array-index string key `"2"` writes `undefined`
into slot 2 of the ordered parameters, without failing. -/
theorem c8_witness :
    arrayIndex "2" = some 2 ∧
    psUnbind (some (.ordered [some (Value.num 1), some (Value.num 2), some (Value.num 3)]))
        (.str "2") =
      .ok (some (.ordered [some (Value.num 1), some (Value.num 2), some Value.undefined])) := by
  refine ⟨rfl, ?_⟩
  have h := c8_named_params_rejection.2.2.2.1
    [some (Value.num 1), some (Value.num 2), some (Value.num 3)] "2" 2 rfl
  exact h.trans (by rfl)

/-- Claim C10: a falsy element makes `next()` report termination at that
position and drop the stored list, so every later element is discarded:
once the list is dropped, every further `next()` reports done. -/
theorem c10_falsy_ends_cursor (rows : List Value) (i : Int)
    (h : jsTruthy (jsIndexList rows (i + 1)) = false) :
    cursorNext ⟨some rows, i⟩ = (⟨none, i + 1⟩, ⟨true, jsIndexList rows (i + 1)⟩) ∧
    (∀ c : InMemoryCursor, c.rows = none → cursorNext c = (c, ⟨true, .undefined⟩)) := by
  exact ⟨by simp [cursorNext, h], cursorNext_exhausted⟩

/-- Witness for C10: a `null` in the middle of a three-element list ends
iteration at index 1. -/
theorem c10_witness :
    jsTruthy (jsIndexList [Value.obj [("id", Value.num 1)], Value.nullV,
      Value.obj [("id", Value.num 3)]] (0 + 1)) = false ∧
    cursorNext ⟨some [Value.obj [("id", Value.num 1)], Value.nullV,
        Value.obj [("id", Value.num 3)]], 0⟩ =
      (⟨none, 0 + 1⟩, ⟨true, jsIndexList [Value.obj [("id", Value.num 1)], Value.nullV,
        Value.obj [("id", Value.num 3)]] (0 + 1)⟩) :=
  ⟨rfl,
   (c10_falsy_ends_cursor [Value.obj [("id", Value.num 1)], Value.nullV,
      Value.obj [("id", Value.num 3)]] 0 rfl).1⟩

/-- Claim C7: over `[r1, r2]` (actual rows, hence truthy) the cursor
yields `r1`, then `r2`, then reports termination with no value; once the
list is dropped — by exhaustion or by `return()` — `next()`, `return()`
and `throw` all leave the state unchanged and report the same terminal
result, and `return()` always drops the list. -/
theorem c7_cursor_iteration (r1 r2 : Value)
    (h1 : jsTruthy r1 = true) (h2 : jsTruthy r2 = true) :
    cursorNext (makeInMemoryCursor (some [r1, r2])) = (⟨some [r1, r2], 0⟩, ⟨false, r1⟩) ∧
    cursorNext ⟨some [r1, r2], 0⟩ = (⟨some [r1, r2], 1⟩, ⟨false, r2⟩) ∧
    cursorNext ⟨some [r1, r2], 1⟩ = (⟨none, 2⟩, ⟨true, .undefined⟩) ∧
    (∀ c : InMemoryCursor, c.rows = none →
      cursorNext c = (c, ⟨true, .undefined⟩) ∧
      cursorReturn c = (c, ⟨true, .undefined⟩) ∧
      cursorThrow c = c) ∧
    (∀ c : InMemoryCursor, (cursorReturn c).1.rows = none ∧ (cursorReturn c).2.done = true) := by
  refine ⟨?_, ?_, ?_, ?_, fun c => ⟨rfl, rfl⟩⟩
  · have e : (-1 : Int) + 1 = 0 := by decide
    simp [makeInMemoryCursor, cursorNext, jsIndexList, e, h1]
  · have e : (0 : Int) + 1 = 1 := by decide
    simp [cursorNext, jsIndexList, e, h2]
  · have e : (1 : Int) + 1 = 2 := by decide
    simp [cursorNext, jsIndexList, e, jsTruthy]
  · intro c hc
    obtain ⟨r, ci⟩ := c
    cases hc
    exact ⟨cursorNext_exhausted _ rfl, rfl, rfl⟩

/-- Witness for C7 over two one-column rows. -/
theorem c7_witness :
    jsTruthy (Value.obj [("a", Value.num 1)]) = true ∧
    cursorNext (makeInMemoryCursor
        (some [Value.obj [("a", Value.num 1)], Value.obj [("a", Value.num 2)]])) =
      (⟨some [Value.obj [("a", Value.num 1)], Value.obj [("a", Value.num 2)]], 0⟩,
        ⟨false, Value.obj [("a", Value.num 1)]⟩) :=
  ⟨rfl, (c7_cursor_iteration (Value.obj [("a", Value.num 1)])
    (Value.obj [("a", Value.num 2)]) rfl rfl).1⟩

/-- `jsArraySetInt` at a non-negative index is the plain array write. -/
theorem jsArraySetInt_ofNonneg (l : List (Option Value)) (i : Int) (v : Value)
    (h : 0 ≤ i) : jsArraySetInt l i v = jsArraySet l i.toNat v := by
  obtain ⟨n, rfl⟩ := Int.eq_ofNat_of_zero_le h
  rfl

/-- Claim C9: `bind` with a numeric position `p ≥ 1` lazily allocates the
ordered sequence when absent and writes slot `p - 1`, touching no other
slot when the sequence exists; `unbind` with a numeric key `k ≥ 0` writes
`undefined` into slot `k` itself (0-based, asymmetric with `bind`) when a
sequence exists and is a no-op when no parameters are bound. -/
theorem c9_bind_unbind_slots :
    (∀ (k : Int) (v : Value), 1 ≤ k →
      psBind none (.num k) v = .ok (some (.ordered (jsArraySet [] (k - 1).toNat v))) ∧
      getSlot (jsArraySet [] (k - 1).toNat v) (k - 1).toNat = some v) ∧
    (∀ (l : List (Option Value)) (k : Int) (v : Value), 1 ≤ k →
      psBind (some (.ordered l)) (.num k) v =
        .ok (some (.ordered (jsArraySet l (k - 1).toNat v))) ∧
      getSlot (jsArraySet l (k - 1).toNat v) (k - 1).toNat = some v ∧
      (∀ j, j ≠ (k - 1).toNat → getSlot (jsArraySet l (k - 1).toNat v) j = getSlot l j)) ∧
    (∀ (l : List (Option Value)) (k : Int), 0 ≤ k →
      psUnbind (some (.ordered l)) (.num k) =
        .ok (some (.ordered (jsArraySet l k.toNat .undefined))) ∧
      getSlot (jsArraySet l k.toNat .undefined) k.toNat = some .undefined ∧
      (∀ j, j ≠ k.toNat → getSlot (jsArraySet l k.toNat .undefined) j = getSlot l j)) ∧
    (∀ key, psUnbind none key = .ok none) := by
  refine ⟨?_, ?_, ?_, fun key => rfl⟩
  · intro k v hk
    have hset := jsArraySetInt_ofNonneg [] (k - 1) v (by omega)
    exact ⟨by simp [psBind, hset], by simp [getSlot_jsArraySet]⟩
  · intro l k v hk
    have hset := jsArraySetInt_ofNonneg l (k - 1) v (by omega)
    exact ⟨by simp [psBind, hset], by rw [getSlot_jsArraySet, if_pos rfl],
      fun j hj => by rw [getSlot_jsArraySet, if_neg hj]⟩
  · intro l k hk
    have hset := jsArraySetInt_ofNonneg l k .undefined hk
    exact ⟨by simp [psUnbind, hset], by rw [getSlot_jsArraySet, if_pos rfl],
      fun j hj => by rw [getSlot_jsArraySet, if_neg hj]⟩

/-- Witness for C9: `bind(2, 5)` on no parameters allocates `[hole, 5]`;
`unbind(0)` then writes `undefined` into slot 0 itself. -/
theorem c9_witness :
    psBind none (.num 2) (Value.num 5) =
      .ok (some (.ordered [none, some (Value.num 5)])) ∧
    psUnbind (some (.ordered [some (Value.num 9), some (Value.num 5)])) (.num 0) =
      .ok (some (.ordered [some Value.undefined, some (Value.num 5)])) :=
  ⟨(c9_bind_unbind_slots.1 2 (Value.num 5) (by decide)).1,
   ((c9_bind_unbind_slots.2.2.1 [some (Value.num 9), some (Value.num 5)] 0 (by decide)).1)⟩

/-- Claim C1: on a single-row result the id column is chosen by the
precedence explicit argument > rewriter-recorded column > probe of `id`,
`<table lower-cased>_id`, upper-cased `<table>_id` (the probe only when a
table was recorded); a named-but-absent explicit or recorded column gives
the unknown-column error listing the available columns, and when no rule
resolves a column the unresolved error lists them. -/
theorem c1_inserted_id_precedence (result : QueryResult) (row : Row)
    (hrow : result.rows = [row]) (insertTable optIdCol idColumnName : Option String) :
    (∀ c, idColumnName = some c → c ≠ "" →
      getInsertedId result insertTable optIdCol idColumnName =
        if hasCol row c then .ok (jsGet row c) else .error (unknownColMsg c row)) ∧
    (∀ c, strTruthy idColumnName = false → optIdCol = some c → c ≠ "" →
      getInsertedId result insertTable optIdCol idColumnName =
        if hasCol row c then .ok (jsGet row c) else .error (unknownColMsg c row)) ∧
    (∀ t, strTruthy idColumnName = false → strTruthy optIdCol = false →
      insertTable = some t → t ≠ "" →
      getInsertedId result insertTable optIdCol idColumnName =
        if hasCol row "id" then .ok (jsGet row "id")
        else if hasCol row (strToLower t ++ "_id") then .ok (jsGet row (strToLower t ++ "_id"))
        else if hasCol row (strToUpper (strToLower t ++ "_id")) then
          .ok (jsGet row (strToUpper (strToLower t ++ "_id")))
        else .error (unresolvedMsg row)) ∧
    (strTruthy idColumnName = false → strTruthy optIdCol = false →
      strTruthy insertTable = false →
      getInsertedId result insertTable optIdCol idColumnName = .error (unresolvedMsg row)) := by
  have hg : getInsertedId result insertTable optIdCol idColumnName =
      match resolveIdCol row insertTable optIdCol idColumnName with
      | .error e => .error e
      | .ok none => .error (unresolvedMsg row)
      | .ok (some col) => .ok (jsGet row col) := by
    simp [getInsertedId, hrow]
  refine ⟨?_, ?_, ?_, ?_⟩
  · intro c hc hne
    subst hc
    have ht : strTruthy (some c) = true := by simp [strTruthy, hne]
    by_cases hh : hasCol row c <;> simp [hg, resolveIdCol, ht, hh]
  · intro c hf1 hc hne
    subst hc
    have ht : strTruthy (some c) = true := by simp [strTruthy, hne]
    by_cases hh : hasCol row c <;> simp [hg, resolveIdCol, hf1, ht, hh]
  · intro t hf1 hf2 hit hne
    subst hit
    have ht : strTruthy (some t) = true := by simp [strTruthy, hne]
    by_cases hh1 : hasCol row "id" <;>
      by_cases hh2 : hasCol row (strToLower t ++ "_id") <;>
      by_cases hh3 : hasCol row (strToUpper (strToLower t ++ "_id")) <;>
      simp [hg, resolveIdCol, hf1, hf2, ht, hh1, hh2, hh3]
  · intro hf1 hf2 hf3
    simp [hg, resolveIdCol, hf1, hf2, hf3]

/-- Witness for C1: with a recorded table `Book` and no explicit column,
the probe finds `book_id` on the row. -/
theorem c1_witness :
    getInsertedId ⟨[[("book_id", Value.num 7)]], 1⟩ (some "Book") none none =
      .ok (Value.num 7) := by
  have h := (c1_inserted_id_precedence ⟨[[("book_id", Value.num 7)]], 1⟩
    [("book_id", Value.num 7)] rfl (some "Book") none none).2.2.1
    "Book" rfl rfl rfl (by decide)
  exact h.trans (by rfl)

/-- Counterexample to claim C2: on a matching INSERT with no configured
column and the return-all flag off, the text is left unmodified but the
table IS recorded — not "neither table nor column" as claimed. -/
theorem c2_counterexample :
    (addReturningToInsert "insert into users values (1)" ⟨none, false, false⟩).sql =
      "insert into users values (1)" ∧
    (addReturningToInsert "insert into users values (1)" ⟨none, false, false⟩).insertTable ≠
      none :=
  ⟨rfl, by decide⟩

/-- Claim C2 as amended: on a regex match, a configured non-empty column
appends `returning <column>` and records table and column; else the
return-all flag appends `returning *` and records the table (no column);
else the text is unmodified and the table is still recorded (no column) —
the matched table is recorded in every matching case. -/
theorem c2_rewriter_on_match (sql : String) (options : LadcPgOptions) (t : String)
    (hm : insertRegexpExec sql = some t) :
    (∀ c, autoincLookup options t = some c → c ≠ "" →
      addReturningToInsert sql options =
        ⟨sql ++ " returning " ++ c, some t, some c⟩) ∧
    (autoincLookup options t = none → options.useReturningAll = true →
      addReturningToInsert sql options = ⟨sql ++ " returning *", some t, none⟩) ∧
    (autoincLookup options t = none → options.useReturningAll = false →
      addReturningToInsert sql options = ⟨sql, some t, none⟩) := by
  refine ⟨?_, ?_, ?_⟩
  · intro c hc hne
    simp [addReturningToInsert, hm, hc, strTruthy, hne]
  · intro h0 hall
    simp [addReturningToInsert, hm, h0, strTruthy, hall]
  · intro h0 hall
    simp [addReturningToInsert, hm, h0, strTruthy, hall]

/-- Witness for C2 with the `users -> id` mapping of the spec example. -/
theorem c2_witness :
    addReturningToInsert "insert into users values ($1)"
        ⟨some [("users", "id")], false, false⟩ =
      ⟨"insert into users values ($1) returning id", some "users", some "id"⟩ := by
  have h := (c2_rewriter_on_match "insert into users values ($1)"
    ⟨some [("users", "id")], false, false⟩ "users" rfl).1 "id" rfl (by decide)
  exact h.trans (by rfl)

/-- Counterexample to claim C3: `all` on a prepared statement sends the
original SQL even when the rewriter would change it. -/
theorem c3_counterexample :
    psAllQuery ⟨some [("users", "id")], false, true⟩ "insert into users values ($1)"
        "ladc-ps-1" none none =
      .ok ⟨some "ladc-ps-1", "insert into users values ($1)", none⟩ ∧
    (addReturningToInsert "insert into users values ($1)"
        ⟨some [("users", "id")], false, true⟩).sql ≠
      "insert into users values ($1)" :=
  ⟨rfl, by decide⟩

/-- Claim C3 as amended: of the three prepared-statement operations only
`exec` applies the rewriter; `all` and `cursor` send the original SQL
unmodified; all three merge bound with call-site parameters, convert them,
and pass the statement's identifier. -/
theorem c3_prepared_queries (options : LadcPgOptions) (sql psName : String)
    (bp cp : Option SqlParams) (merged : Option SqlParams)
    (vals : Option (List (Option Value)))
    (hm : mergeParams bp cp = .ok merged)
    (hv : toPositionalParameters merged = .ok vals) :
    psExecQuery options sql psName bp cp =
      .ok ⟨some psName, (addReturningToInsert sql options).sql, vals⟩ ∧
    psAllQuery options sql psName bp cp = .ok ⟨some psName, sql, vals⟩ ∧
    (options.inMemoryCursor = true →
      psCursorQuery options sql psName bp cp = .ok ⟨some psName, sql, vals⟩) := by
  refine ⟨?_, ?_, ?_⟩
  · simp [psExecQuery, hm, hv, bind, Except.bind, Functor.map, Except.map,
      pure, Except.pure]
  · simp [psAllQuery, hm, hv, bind, Except.bind, Functor.map, Except.map,
      pure, Except.pure]
  · intro hc
    simp [psCursorQuery, hc, hm, hv, bind, Except.bind, Functor.map, Except.map,
      pure, Except.pure]

/-- Witness for C3: same insert under exec and all, empty parameters. -/
theorem c3_witness :
    psExecQuery ⟨some [("users", "id")], false, true⟩ "insert into users values ($1)"
        "ladc-ps-1" none none =
      .ok ⟨some "ladc-ps-1", "insert into users values ($1) returning id", none⟩ ∧
    psAllQuery ⟨some [("users", "id")], false, true⟩ "insert into users values ($1)"
        "ladc-ps-1" none none =
      .ok ⟨some "ladc-ps-1", "insert into users values ($1)", none⟩ := by
  have h := c3_prepared_queries ⟨some [("users", "id")], false, true⟩
    "insert into users values ($1)" "ladc-ps-1" none none none none rfl rfl
  exact ⟨h.1.trans (by rfl), h.2.1⟩

end Pg
